import Mathlib

/-!
Shallow embedding of the `clean_bachelor` repository's data-encoding
pipeline (`src/data_provider/data_encoder.py`, `src/data_provider/data_provider.py`)
and of the attention core (`src/models/iTransformer/attention.py`).

Modelling conventions:
* Timestamps are integers counting hours since the Unix epoch, so
  `pd.Timedelta(days=1)` is `+ 24` and `DatetimeIndex.hour` is `t.emod 24`.
* A pandas DataFrame is a `PDF`: a list of row timestamps, a list of column
  identifiers and a cell function; `none` models a missing cell (NaN or
  absent row/column).  `PDF.cell` is the membership-aware lookup.
* Missing floats are `Option ℝ`; fallible Python calls return `Except PyExc`.
-/

namespace CleanBachelor

/-- Python exceptions that the embedded code can raise. -/
inductive PyExc where
  | exception : String → PyExc
  | keyError : PyExc
  | typeError : String → PyExc
  | attributeError : PyExc
deriving DecidableEq, Repr

/-- Column identifiers of the pipeline's DataFrames.  `named s` is a raw
column named `s`; `lag c` is the column `c` renamed by `add_prefix('(t-1)')`;
`sine s` / `cosine s` are the `s_sine_encoding` / `s_cosine_encoding` columns
produced by `SineCosineEncoder.create_encoding`; `yearDummy y` is the
`get_dummies` column `year_y`; `ae art i` is the autoencoder output column
`art_i`. -/
inductive Col where
  | named : String → Col
  | lag : Col → Col
  | sine : String → Col
  | cosine : String → Col
  | yearDummy : ℤ → Col
  | ae : String → ℕ → Col
deriving DecidableEq, Repr

/-- The pandas column-name string a `Col` stands for. -/
def Col.render : Col → String
  | .named s => s
  | .lag c => "(t-1)" ++ c.render
  | .sine s => s ++ "_sine_encoding"
  | .cosine s => s ++ "_cosine_encoding"
  | .yearDummy y => "year_" ++ toString y
  | .ae art i => art ++ "_" ++ toString i

/-- A pandas DataFrame: row index (hour timestamps), columns, and cells.
`val` is only meaningful inside `rows × cols`; use `PDF.cell` to read. -/
structure PDF where
  rows : List ℤ
  cols : List Col
  val : ℤ → Col → Option ℝ

/-- Membership-aware cell lookup: `none` for any position outside the
frame's index or columns, mirroring how pandas alignment introduces NaN. -/
def PDF.cell (df : PDF) (t : ℤ) (c : Col) : Option ℝ :=
  if t ∈ df.rows ∧ c ∈ df.cols then df.val t c else none

theorem PDF.cell_eq_of_mem (df : PDF) (t : ℤ) (c : Col)
    (ht : t ∈ df.rows) (hc : c ∈ df.cols) : df.cell t c = df.val t c := by
  simp [PDF.cell, ht, hc]

theorem PDF.cell_isSome_mem (df : PDF) (t : ℤ) (c : Col)
    (h : (df.cell t c).isSome) : t ∈ df.rows ∧ c ∈ df.cols := by
  by_cases hm : t ∈ df.rows ∧ c ∈ df.cols
  · exact hm
  · simp [PDF.cell, hm] at h

/-! ### SineCosineEncoder (src/data_provider/data_encoder.py, lines 108-132)

`radians = (data / parameter_range) * 2 * np.pi`;
`sine_encoding = 0.5 * (np.sin(radians) + 1) - 0.5` and the cosine analogue. -/

/-- Sine half of `SineCosineEncoder.create_encoding` applied to one value. -/
noncomputable def create_encoding_sine (x p : ℝ) : ℝ :=
  0.5 * (Real.sin (x / p * 2 * Real.pi) + 1) - 0.5

/-- Cosine half of `SineCosineEncoder.create_encoding` applied to one value. -/
noncomputable def create_encoding_cosine (x p : ℝ) : ℝ :=
  0.5 * (Real.cos (x / p * 2 * Real.pi) + 1) - 0.5

/-! ### Calendar arithmetic for the temporal encoder

pandas `DatetimeIndex.year/month/day/dayofweek/hour` on naive hourly
timestamps; implemented with the standard civil-from-days conversion. -/

/-- Day number of an hour timestamp (floor division by 24). -/
def daysOf (t : ℤ) : ℤ := Int.fdiv t 24

/-- Hour of day, as pandas `DatetimeIndex.hour`. -/
def hourOf (t : ℤ) : ℤ := Int.emod t 24

/-- Weekday with Monday = 0, as pandas `DatetimeIndex.dayofweek`
(1970-01-01 was a Thursday, hence the offset 3). -/
def dayofweekOf (t : ℤ) : ℤ := Int.emod (daysOf t + 3) 7

/-- Gregorian (year, month, day) of a day count since 1970-01-01. -/
def civilFromDays (z0 : ℤ) : ℤ × ℤ × ℤ :=
  let z := z0 + 719468
  let era := Int.fdiv z 146097
  let doe := z - era * 146097
  let yoe := Int.fdiv (doe - Int.fdiv doe 1460 + Int.fdiv doe 36524 - Int.fdiv doe 146096) 365
  let y := yoe + era * 400
  let doy := doe - (365 * yoe + Int.fdiv yoe 4 - Int.fdiv yoe 100)
  let mp := Int.fdiv (5 * doy + 2) 153
  let d := doy - Int.fdiv (153 * mp + 2) 5 + 1
  let m := mp + (if mp < 10 then 3 else -9)
  (if m ≤ 2 then y + 1 else y, m, d)

/-- Calendar year of an hour timestamp. -/
def yearOf (t : ℤ) : ℤ := (civilFromDays (daysOf t)).1

/-- Calendar month of an hour timestamp. -/
def monthOf (t : ℤ) : ℤ := (civilFromDays (daysOf t)).2.1

/-- Calendar day-of-month of an hour timestamp. -/
def dayOf (t : ℤ) : ℤ := (civilFromDays (daysOf t)).2.2

/-! ### Persisted encoder state (joblib / keras artifact files)

`BaseEncoder.fit_encoder` dumps a fitted `StandardScaler` to
`self.encoder_filename`; `AutoEncoder.fit_encoder` trains an autoencoder and
persists it to its `.h5` file.  The artifact store is a map from file path to
the persisted state. -/

/-- A persisted encoder artifact: either a pickled `StandardScaler`
(per-column means and variances, by column position) or a saved keras model
(identified abstractly). -/
inductive EncState where
  | scaler : List ℝ → List ℝ → EncState
  | model : ℕ → EncState

/-- The artifact store: file path to persisted state. -/
def Store : Type := String → Option EncState

/-- The empty store: nothing has been fitted yet. -/
def emptyStore : Store := fun _ => none

/-- Write one artifact (`joblib.dump` / keras model save). -/
def storeSet (s : Store) (k : String) (v : EncState) : Store :=
  fun q => if q = k then some v else s q

theorem storeSet_same (s : Store) (k : String) (v : EncState) :
    storeSet s k v k = some v := by simp [storeSet]

theorem storeSet_other (s : Store) (k q : String) (v : EncState) (h : q ≠ k) :
    storeSet s k v q = s q := by simp [storeSet, h]

/-- Default artifact paths hardcoded in the encoder constructors. -/
def weatherPath : String := "saved_models/weather_encoding.save"

/-- Default artifact path of `LabelEncoder`, shared by the `labels` and the
derived `sales` group encoders. -/
def labelPath : String := "saved_models/label_encoding.save"

/-- Default artifact path of `FerienEncoder`. -/
def ferienPath : String := "saved_models/ferien_encoding.h5"

/-- Default artifact path of `FahrtenEncoder`. -/
def fahrtenPath : String := "saved_models/fahrten_encoding.h5"

/-- Message of the exception raised when loading an unfitted encoder
(src/data_provider/data_encoder.py, lines 25 and 89). -/
def notFittedMsg : String :=
  "Error while loading encoder. Try running BaseEncoder.fit_encoder() or BaseEncoder.fit_and_encode() first to create a new encoder"

/-- `BaseEncoder.load_encoder`: a falsy filename silently yields no encoder;
otherwise `joblib.load`, with `FileNotFoundError` re-raised as an `Exception`
telling the caller to fit first (lines 20-25). -/
def BaseEncoder.load_encoder (filename : Option String) (store : Store) :
    Except PyExc (Option EncState) :=
  match filename with
  | none => .ok none
  | some f =>
    match store f with
    | some st => .ok (some st)
    | none => .error (.exception notFittedMsg)

/-- `AutoEncoder.load_encoder`: `tf.keras.models.load_model` inside a
`try`/`except FileNotFoundError` that re-raises the same fit-first
`Exception` (lines 84-89); a falsy filename yields no encoder. -/
def AutoEncoder.load_encoder (filename : Option String) (store : Store) :
    Except PyExc (Option EncState) :=
  match filename with
  | none => .ok none
  | some f =>
    match store f with
    | some st => .ok (some st)
    | none => .error (.exception notFittedMsg)

/-! ### StandardScaler (sklearn), fitted per column position -/

/-- Mean of a list of reals (0 for the empty list, as a junk value). -/
noncomputable def listMean (xs : List ℝ) : ℝ := xs.sum / xs.length

/-- Column values of a frame in row order, NaN read as 0 for the moment of
fitting (inputs to the pipeline are NaN-free, coming from `fillna(0)`). -/
def colVals (df : PDF) (c : Col) : List ℝ :=
  df.rows.map (fun t => (df.cell t c).getD 0)

/-- Per-column mean computed by `StandardScaler.fit`. -/
noncomputable def colMean (df : PDF) (c : Col) : ℝ := listMean (colVals df c)

/-- Per-column (biased) variance computed by `StandardScaler.fit`. -/
noncomputable def colVar (df : PDF) (c : Col) : ℝ :=
  listMean ((colVals df c).map (fun x => (x - colMean df c) ^ 2))

/-- The positional mean vector of a fitted `StandardScaler`. -/
noncomputable def colMeansOf (df : PDF) : List ℝ := df.cols.map (colMean df)

/-- The positional variance vector of a fitted `StandardScaler`. -/
noncomputable def colVarsOf (df : PDF) : List ℝ := df.cols.map (colVar df)

/-- sklearn's `scale_`: square root of the variance, with zero variance
replaced by 1 (`_handle_zeros_in_scale`). -/
noncomputable def stdScale (v : ℝ) : ℝ := if v = 0 then 1 else Real.sqrt v

/-- `StandardScaler.transform` on a frame, matching columns by position in
`df.cols` against the fitted mean/variance vectors. -/
noncomputable def scalerTransform (mean var : List ℝ) (df : PDF) : PDF :=
  { rows := df.rows
    cols := df.cols
    val := fun t c =>
      (df.cell t c).map (fun x =>
        (x - mean.getD (df.cols.indexOf c) 0) /
          stdScale (var.getD (df.cols.indexOf c) 0)) }

/-! ### TemporalEncoder (lines 39-51) -/

/-- Distinct years present in the index, the `get_dummies` categories. -/
def yearsIn (index : List ℤ) : List ℤ := (index.map yearOf).dedup

/-- Cell function of the temporal encoding. -/
noncomputable def temporalVal (t : ℤ) (c : Col) : Option ℝ :=
  match c with
  | .yearDummy y => some (if yearOf t = y then 1 else 0)
  | .sine "month" => some (create_encoding_sine (monthOf t : ℝ) 12)
  | .cosine "month" => some (create_encoding_cosine (monthOf t : ℝ) 12)
  | .sine "day" => some (create_encoding_sine (dayOf t : ℝ) 31)
  | .cosine "day" => some (create_encoding_cosine (dayOf t : ℝ) 31)
  | .sine "weekday" => some (create_encoding_sine (dayofweekOf t : ℝ) 7)
  | .cosine "weekday" => some (create_encoding_cosine (dayofweekOf t : ℝ) 7)
  | .sine "hour" => some (create_encoding_sine (hourOf t : ℝ) 24)
  | .cosine "hour" => some (create_encoding_cosine (hourOf t : ℝ) 24)
  | _ => none

/-- `TemporalEncoder._encode_data`: one-hot year dummies plus cyclic
encodings of month (12), day (31), weekday (7) and hour (24). -/
noncomputable def temporalEncode (index : List ℤ) : PDF :=
  { rows := index
    cols := (yearsIn index).map Col.yearDummy ++
      [Col.sine "month", Col.cosine "month", Col.sine "day", Col.cosine "day",
       Col.sine "weekday", Col.cosine "weekday", Col.sine "hour", Col.cosine "hour"]
    val := temporalVal }

/-! ### WeatherEncoder (lines 54-62) -/

/-- `WeatherEncoder._encode_data`: cyclic wind-direction encoding (period
360) concatenated with the standardized weather columns, then
`wind_direction` dropped. -/
noncomputable def weatherEncode (mean var : List ℝ) (df : PDF) : PDF :=
  { rows := df.rows
    cols := [Col.sine "wind_direction", Col.cosine "wind_direction"] ++
      df.cols.filter (fun c => c ≠ Col.named "wind_direction")
    val := fun t c =>
      match c with
      | .sine "wind_direction" =>
        (df.cell t (Col.named "wind_direction")).map (fun x => create_encoding_sine x 360)
      | .cosine "wind_direction" =>
        (df.cell t (Col.named "wind_direction")).map (fun x => create_encoding_cosine x 360)
      | _ => (scalerTransform mean var df).val t c }

/-! ### AutoEncoder (lines 75-105): the training code lives in
models/autoencoder/training.py, which is not part of the sources here. -/

/-- Modelled from the spec: `build_autoencoder`/`train_model`
(models/autoencoder/training.py, not under src/) train a nonlinear
autoencoder on the group and persist the trained model to the encoder's
`.h5` file; only the encoding half is used afterwards.  Training is
stochastic, so `fit` additionally consumes a randomness seed; `width` is the
learned embedding width of a trained model and `predict` its deterministic
forward inference. -/
structure AEModel where
  fit : PDF → ℕ → ℕ
  width : ℕ → ℕ
  predict : ℕ → PDF → ℤ → ℕ → ℝ

/-- `AutoEncoder._encode_data`: forward inference, output columns named
`<artifact>_0 .. <artifact>_(k-1)`. -/
def aeEncode (M : AEModel) (art : String) (mid : ℕ) (df : PDF) : PDF :=
  { rows := df.rows
    cols := (List.range (M.width mid)).map (Col.ae art)
    val := fun t c =>
      match c with
      | .ae a i => if a = art ∧ i < M.width mid then some (M.predict mid df t i) else none
      | _ => none }

/-! ### DataProcessor (lines 135-175) -/

/-- The fixed weather columns selected in `DataProcessor.__init__`. -/
def weatherColNames : List Col :=
  [Col.named "temperature", Col.named "precipitation",
   Col.named "wind_speed", Col.named "wind_direction"]

/-- The sixteen fixed regional holiday-indicator columns. -/
def ferienColNames : List Col :=
  (["BW", "BY", "BE", "BB", "HB", "HH", "HE", "MV",
    "NI", "NW", "RP", "SL", "SN", "ST", "SH", "TH"]).map Col.named

/-- The six fixed transit arrival/departure columns. -/
def fahrtenColNames : List Col :=
  (["SP1_an", "SP2_an", "SP4_an", "SP1_ab", "SP2_ab", "SP4_ab"]).map Col.named

/-- All columns the constructor selects by name. -/
def requiredColNames : List Col := weatherColNames ++ ferienColNames ++ fahrtenColNames

/-- Python `str(col).isnumeric()` on a raw column name: nonempty and all
digits.  Only raw (`named`) columns can qualify. -/
def isNumericCol : Col → Bool
  | .named s => s.length ≠ 0 && s.toList.all Char.isDigit
  | _ => false

/-- `data[[c₁, …, cₙ]]`: column selection; pandas raises `KeyError` when a
requested column is absent. -/
def selectCols (df : PDF) (cs : List Col) : Except PyExc PDF :=
  if cs.all (fun c => c ∈ df.cols) then
    .ok { rows := df.rows, cols := cs, val := df.val }
  else .error .keyError

/-- The per-group raw data held in `DataProcessor.self.data`. -/
structure Processor where
  datetime : List ℤ
  weather : PDF
  ferien : PDF
  fahrten : PDF
  labels : PDF
  sales : PDF

/-- `DataProcessor._create_sales_features`: copy the label group, rename
every column with the `(t-1)` marker and shift the index forward by one day
(+ 24 hours). -/
def create_sales_features (labels : PDF) : PDF :=
  { rows := labels.rows.map (fun t => t + 24)
    cols := labels.cols.map Col.lag
    val := fun t c =>
      match c with
      | .lag c0 => labels.cell (t - 24) c0
      | _ => none }

/-- `DataProcessor.__init__`: partition the merged table into the fixed
groups (raising `KeyError` if a fixed column is missing), select the
numeric-named label columns, then derive the sales-history group. -/
def DataProcessor.init (input : PDF) : Except PyExc Processor := do
  let w ← selectCols input weatherColNames
  let fe ← selectCols input ferienColNames
  let fa ← selectCols input fahrtenColNames
  let lab : PDF := { rows := input.rows, cols := input.cols.filter isNumericCol, val := input.val }
  .ok { datetime := input.rows, weather := w, ferien := fe, fahrten := fa,
        labels := lab, sales := create_sales_features lab }

/-- The filename each `DataProcessor` encoder persists to
(`self.encoders`, lines 145-152): `TemporalEncoder()` has no file, the
label and sales groups share the `LabelEncoder` default. -/
def encoderFilename : String → Option String
  | "datetime" => none
  | "weather" => some weatherPath
  | "ferien" => some ferienPath
  | "fahrten" => some fahrtenPath
  | "labels" => some labelPath
  | "sales" => some labelPath
  | _ => none

/-- The six encoded group outputs of `_encode_data` before reassembly. -/
structure GroupOutputs where
  sales : PDF
  datetime : PDF
  weather : PDF
  ferien : PDF
  fahrten : PDF
  labels : PDF

/-- Fit-mode `_encode_data` body: iterate the groups in `self.data`
insertion order (datetime, weather, ferien, fahrten, labels, sales), calling
`fit_and_encode` on each group's encoder: fit, persist, then transform with
the freshly fitted state.  Returns the encoded groups and the updated
artifact store. -/
noncomputable def fitGroups (M : AEModel) (r1 r2 : ℕ) (p : Processor) (store : Store) :
    GroupOutputs × Store :=
  let dt := temporalEncode p.datetime
  let wm := colMeansOf p.weather
  let wv := colVarsOf p.weather
  let store := storeSet store weatherPath (.scaler wm wv)
  let w := weatherEncode wm wv p.weather
  let feModel := M.fit p.ferien r1
  let store := storeSet store ferienPath (.model feModel)
  let fe := aeEncode M "ferien_encoding" feModel p.ferien
  let faModel := M.fit p.fahrten r2
  let store := storeSet store fahrtenPath (.model faModel)
  let fa := aeEncode M "fahrten_encoding" faModel p.fahrten
  let lm := colMeansOf p.labels
  let lv := colVarsOf p.labels
  let store := storeSet store labelPath (.scaler lm lv)
  let lab := scalerTransform lm lv p.labels
  let sm := colMeansOf p.sales
  let sv := colVarsOf p.sales
  let store := storeSet store labelPath (.scaler sm sv)
  let sal := scalerTransform sm sv p.sales
  (⟨sal, dt, w, fe, fa, lab⟩, store)

/-- Encode-mode `_encode_data` body: iterate the groups in the same order,
loading each encoder's persisted state and transforming with it; a missing
artifact propagates its exception, a non-scaler pickle would fail in
`transform` (`AttributeError`). -/
noncomputable def encodeGroups (M : AEModel) (p : Processor) (store : Store) :
    Except PyExc GroupOutputs := do
  let _ ← BaseEncoder.load_encoder (encoderFilename "datetime") store
  let dt := temporalEncode p.datetime
  let wSt ← BaseEncoder.load_encoder (encoderFilename "weather") store
  let w ← match wSt with
    | some (.scaler m v) => .ok (weatherEncode m v p.weather)
    | _ => .error .attributeError
  let feSt ← AutoEncoder.load_encoder (encoderFilename "ferien") store
  let fe ← match feSt with
    | some (.model mid) => .ok (aeEncode M "ferien_encoding" mid p.ferien)
    | _ => .error .attributeError
  let faSt ← AutoEncoder.load_encoder (encoderFilename "fahrten") store
  let fa ← match faSt with
    | some (.model mid) => .ok (aeEncode M "fahrten_encoding" mid p.fahrten)
    | _ => .error .attributeError
  let labSt ← BaseEncoder.load_encoder (encoderFilename "labels") store
  let lab ← match labSt with
    | some (.scaler m v) => .ok (scalerTransform m v p.labels)
    | _ => .error .attributeError
  let salSt ← BaseEncoder.load_encoder (encoderFilename "sales") store
  let sal ← match salSt with
    | some (.scaler m v) => .ok (scalerTransform m v p.sales)
    | _ => .error .attributeError
  .ok ⟨sal, dt, w, fe, fa, lab⟩

/-- Row list of `pd.concat(axis=1)` with outer alignment: every timestamp
appearing in some group. -/
def concatRows (dfs : List PDF) : List ℤ :=
  dfs.foldr (fun d acc => d.rows ++ acc) []

/-- A timestamp survives `dropna()` iff every group has a defined value in
every one of its columns there. -/
def allDefinedAt (dfs : List PDF) (t : ℤ) : Bool :=
  dfs.all (fun d => d.cols.all (fun c => (d.cell t c).isSome))

/-- `pd.concat(encoded_data.values(), axis=1).dropna()`. -/
def concat_dropna (dfs : List PDF) : PDF :=
  { rows := (concatRows dfs).filter (fun t => allDefinedAt dfs t)
    cols := dfs.foldr (fun d acc => d.cols ++ acc) []
    val := fun t c => dfs.findSome? (fun d => if c ∈ d.cols then d.cell t c else none) }

/-- Reassemble the groups in the fixed `new_order`
[sales, datetime, weather, ferien, fahrten, labels] and drop incomplete rows. -/
def matrixOf (gs : GroupOutputs) : PDF :=
  concat_dropna [gs.sales, gs.datetime, gs.weather, gs.ferien, gs.fahrten, gs.labels]

/-- `DataProcessor.fit_and_encode`: fit every group encoder, then assemble. -/
noncomputable def DataProcessor.fit_and_encode (M : AEModel) (r1 r2 : ℕ)
    (p : Processor) (store : Store) : PDF × Store :=
  let (gs, store) := fitGroups M r1 r2 p store
  (matrixOf gs, store)

/-- `DataProcessor.encode`: load every group encoder's persisted state,
transform, then assemble; load failures propagate to the caller. -/
noncomputable def DataProcessor.encode (M : AEModel) (p : Processor) (store : Store) :
    Except PyExc PDF :=
  (encodeGroups M p store).map matrixOf

/-! ### DataProvider (src/data_provider/data_provider.py, lines 35-58) -/

/-- The provider configuration fields used by `filter_time_and_date`:
`pd.Timestamp(start_date + ' ' + start_time)` and the end analogue are the
hour timestamps `startTS`/`endTS`; `between_time` compares hours of day
`startTime`/`endTime`. -/
structure ProviderConfigs where
  startTS : ℤ
  endTS : ℤ
  startTime : ℤ
  endTime : ℤ

/-- Row predicate of `filter_time_and_date`: inside the inclusive datetime
range and inside the inclusive `between_time` hour-of-day window (which
wraps past midnight when start exceeds end, as pandas does). -/
def inTimeWindow (c : ProviderConfigs) (t : ℤ) : Bool :=
  (decide (c.startTS ≤ t) && decide (t ≤ c.endTS)) &&
    (if c.startTime ≤ c.endTime then
      decide (c.startTime ≤ hourOf t) && decide (hourOf t ≤ c.endTime)
    else
      decide (c.startTime ≤ hourOf t) || decide (hourOf t ≤ c.endTime))

/-- `DataProvider.filter_time_and_date`. -/
def filter_time_and_date (c : ProviderConfigs) (df : PDF) : PDF :=
  { rows := df.rows.filter (inTimeWindow c), cols := df.cols, val := df.val }

/-- `DataFrame.fillna(x)`: every cell of the frame becomes defined. -/
def PDF.fillna (x : ℝ) (df : PDF) : PDF :=
  { rows := df.rows
    cols := df.cols
    val := fun t c =>
      if t ∈ df.rows ∧ c ∈ df.cols then some ((df.cell t c).getD x) else none }

/-- `new_data.combine_first(database)`: union of indexes and columns, the
caller's (new) value winning wherever it is defined. -/
def combine_first (n b : PDF) : PDF :=
  { rows := n.rows ++ b.rows
    cols := n.cols ++ b.cols
    val := fun t c => (n.cell t c).orElse (fun _ => b.cell t c) }

/-- One source of `load_database`: the baseline csv always loads; reading
the incremental `data/new_data` csv may fail, in which case the bare `except`
falls back to the baseline alone. -/
def mergedSource (src : Option PDF × PDF) : PDF :=
  match src.1 with
  | some n => combine_first n src.2
  | none => src.2

/-- `result.join(df, how='outer')`: union of rows; each column is read from
the left operand when it owns the column, otherwise from the right. -/
def outer_join (a b : PDF) : PDF :=
  { rows := a.rows ++ b.rows
    cols := a.cols ++ b.cols
    val := fun t c => if c ∈ a.cols then a.cell t c else b.cell t c }

/-- `data[0]` joined with `data[1:]` in a loop. -/
def joinAll : List PDF → Option PDF
  | [] => none
  | d :: ds => some (ds.foldl outer_join d)

/-- `DataProvider.load_database`: per source prefer new data over the
baseline, outer-join all sources, filter by date range and time-of-day
window, and fill the remaining gaps with 0.  `none` only for an empty
provider dict (the real dict holds four sources). -/
def load_database (c : ProviderConfigs) (srcs : List (Option PDF × PDF)) : Option PDF :=
  (joinAll (srcs.map mergedSource)).map
    (fun joined => PDF.fillna 0 (filter_time_and_date c joined))

/-! ### FullAttention and TriangularCausalMask
(src/models/iTransformer/attention.py, lines 51-87) -/

/-- Parameter names accepted by `TriangularCausalMask.__init__` after
`self` (line 81: `def __init__(self, B, L)`). -/
def TriangularCausalMask.params : List String := ["B", "L"]

/-- Binding check of a Python call: every keyword argument must name a
parameter left unbound by the positional arguments, else `TypeError`. -/
def pyCallKeywordBind (params : List String) (positional : ℕ) (kwargs : List String) :
    Except PyExc Unit :=
  if kwargs.all (fun k => k ∈ params.drop positional) then .ok ()
  else .error (.typeError "got an unexpected keyword argument")

/-- The boolean mask built by `TriangularCausalMask.__init__`:
`tf.linalg.band_part(tf.ones([B,1,L,L]), -1, 0)` keeps exactly the entries
with `s ≤ l` (all sub-diagonals, no super-diagonals). -/
def TriangularCausalMask.maskAt (_B _L : ℕ) (_b _h l s : ℕ) : Bool :=
  decide (s ≤ l)

/-- Configuration of a `FullAttention` layer. -/
structure FullAttention where
  scale : Option ℝ
  mask_flag : Bool
  output_attention : Bool

/-- A rank-4 real tensor, indexed by (batch, position, head, channel) or
(batch, head, position, position) as appropriate. -/
def Tensor4 : Type := ℕ → ℕ → ℕ → ℕ → ℝ

/-- Exponential extended with `exp(-∞) = 0`, the effect of feeding the
`-np.inf` masked scores through `tf.nn.softmax`. -/
noncomputable def expw : WithBot ℝ → ℝ
  | ⊥ => 0
  | (x : ℝ) => Real.exp x

/-- Softmax over the key axis of one score row (axis of length `S`). -/
noncomputable def softmaxRow (f : ℕ → WithBot ℝ) (S j : ℕ) : ℝ :=
  expw (f j) / ∑ k in Finset.range S, expw (f k)

/-- `FullAttention.call` (lines 59-78): scores by `einsum("blhe,bshe->bhls")`,
optional causal masking (constructing the default mask passes a `device`
keyword to `TriangularCausalMask`), `-np.inf` written where the mask is
True, softmax over the key axis (dropout is the identity outside training),
and the weighted value sum; the attention tensor is returned only when
`output_attention` is set. -/
noncomputable def FullAttention.call (fa : FullAttention) (B L _H E S : ℕ)
    (queries keys values : Tensor4) (attn_mask : Option (ℕ → ℕ → ℕ → ℕ → Bool)) :
    Except PyExc (Tensor4 × Option Tensor4) := do
  let scale : ℝ := fa.scale.getD (1 / Real.sqrt (E : ℝ))
  let scores : Tensor4 := fun b h l s => ∑ e in Finset.range E, queries b l h e * keys b s h e
  let masked : ℕ → ℕ → ℕ → ℕ → WithBot ℝ ←
    if fa.mask_flag then
      match attn_mask with
      | none => do
        let _ ← pyCallKeywordBind TriangularCausalMask.params 2 ["device"]
        let m := TriangularCausalMask.maskAt B L
        pure (fun b h l s => if m b h l s then ⊥ else (scores b h l s : WithBot ℝ))
      | some m =>
        pure (fun b h l s => if m b h l s then ⊥ else (scores b h l s : WithBot ℝ))
    else
      pure (fun b h l s => (scores b h l s : WithBot ℝ))
  let A : Tensor4 := fun b h l s =>
    softmaxRow (fun j => (masked b h l j).map (fun x => scale * x)) S s
  let V : Tensor4 := fun b l h d => ∑ s in Finset.range S, A b h l s * values b s h d
  .ok (V, if fa.output_attention then some A else none)

/-! ### Concrete evaluation fixtures -/

/-- A trivial autoencoder instance used to evaluate the pipeline on
concrete data: embedding width 1, constant zero output. -/
def aeTest : AEModel :=
  { fit := fun _ s => s, width := fun _ => 1, predict := fun _ _ _ _ => 0 }

/-- A concrete merged input table: all fixed columns plus one numeric label
column "10", three hourly-spaced days, every cell 1. -/
noncomputable def inputW : PDF :=
  { rows := [0, 24, 48]
    cols := requiredColNames ++ [Col.named "10"]
    val := fun _ _ => some 1 }

/-- The group partition `DataProcessor.__init__` builds from `inputW`. -/
noncomputable def procW : Processor :=
  { datetime := inputW.rows
    weather := { rows := inputW.rows, cols := weatherColNames, val := inputW.val }
    ferien := { rows := inputW.rows, cols := ferienColNames, val := inputW.val }
    fahrten := { rows := inputW.rows, cols := fahrtenColNames, val := inputW.val }
    labels := { rows := inputW.rows, cols := inputW.cols.filter isNumericCol, val := inputW.val }
    sales := create_sales_features
      { rows := inputW.rows, cols := inputW.cols.filter isNumericCol, val := inputW.val } }

/-- An input table missing every required column. -/
def inputBadW : PDF := { rows := [0], cols := [], val := fun _ _ => none }

/-- The group outputs `encode` reconstructs after a fresh fit on `procW`. -/
noncomputable def gsFitW : GroupOutputs :=
  { sales := scalerTransform (colMeansOf procW.sales) (colVarsOf procW.sales) procW.sales
    datetime := temporalEncode procW.datetime
    weather := weatherEncode (colMeansOf procW.weather) (colVarsOf procW.weather) procW.weather
    ferien := aeEncode aeTest "ferien_encoding" (aeTest.fit procW.ferien 0) procW.ferien
    fahrten := aeEncode aeTest "fahrten_encoding" (aeTest.fit procW.fahrten 0) procW.fahrten
    labels := scalerTransform (colMeansOf procW.sales) (colVarsOf procW.sales) procW.labels }

/-- Concrete incremental (new-data) table for one provider source. -/
noncomputable def nW : PDF :=
  { rows := [5], cols := [Col.named "x"], val := fun _ _ => some 3 }

/-- Concrete baseline table for the same provider source. -/
noncomputable def bW : PDF :=
  { rows := [5, 6], cols := [Col.named "x", Col.named "y"]
    val := fun t c => if t = 6 ∧ c = Col.named "y" then none else some 7 }

/-- Concrete provider configuration: generous date range, full-day window. -/
def cW : ProviderConfigs := { startTS := 0, endTS := 100, startTime := 0, endTime := 23 }

/-- The table `load_database` produces from the single source `(nW, bW)`. -/
noncomputable def resW : PDF :=
  PDF.fillna 0 (filter_time_and_date cW (mergedSource (some nW, bW)))

/-! ## Helper lemmas -/

@[simp]
theorem exceptBind_ok {α β ε : Type} (a : α) (f : α → Except ε β) :
    (Except.ok a >>= f) = f a := rfl

@[simp]
theorem exceptBind_err {α β ε : Type} (e : ε) (f : α → Except ε β) :
    ((Except.error e : Except ε α) >>= f) = Except.error e := rfl

@[simp]
theorem exceptMap_ok {α β ε : Type} (a : α) (f : α → β) :
    (Except.map f (Except.ok a : Except ε α)) = Except.ok (f a) := rfl

@[simp]
theorem exceptMap_err {α β ε : Type} (e : ε) (f : α → β) :
    (Except.map f (Except.error e : Except ε α)) = Except.error e := rfl

/-! ## C8: SineCosineEncoder contract -/

/-- C8.  `SineCosineEncoder.create_encoding` realises
sine = 0.5·(sin(2π·v/p)+1) − 0.5 and the cosine analogue; both outputs lie
in [-0.5, 0.5]; sine(0,12) = 0 and cosine(0,12) = 0.5; and for every value
the squares of the two encodings sum to 0.25. -/
theorem create_encoding_contract (v p : ℝ) (_hp : 0 < p) :
    create_encoding_sine v p = 0.5 * (Real.sin (2 * Real.pi * v / p) + 1) - 0.5
    ∧ create_encoding_cosine v p = 0.5 * (Real.cos (2 * Real.pi * v / p) + 1) - 0.5
    ∧ (-0.5 ≤ create_encoding_sine v p ∧ create_encoding_sine v p ≤ 0.5)
    ∧ (-0.5 ≤ create_encoding_cosine v p ∧ create_encoding_cosine v p ≤ 0.5)
    ∧ create_encoding_sine 0 12 = 0
    ∧ create_encoding_cosine 0 12 = 0.5
    ∧ create_encoding_sine v p ^ 2 + create_encoding_cosine v p ^ 2 = 0.25 := by
  have harg : v / p * 2 * Real.pi = 2 * Real.pi * v / p := by ring
  have hs1 := Real.neg_one_le_sin (v / p * 2 * Real.pi)
  have hs2 := Real.sin_le_one (v / p * 2 * Real.pi)
  have hc1 := Real.neg_one_le_cos (v / p * 2 * Real.pi)
  have hc2 := Real.cos_le_one (v / p * 2 * Real.pi)
  have hsq := Real.sin_sq_add_cos_sq (v / p * 2 * Real.pi)
  refine ⟨by rw [create_encoding_sine, harg], by rw [create_encoding_cosine, harg],
    ⟨?_, ?_⟩, ⟨?_, ?_⟩, ?_, ?_, ?_⟩
  · unfold create_encoding_sine; linarith
  · unfold create_encoding_sine; linarith
  · unfold create_encoding_cosine; linarith
  · unfold create_encoding_cosine; linarith
  · unfold create_encoding_sine; norm_num
  · unfold create_encoding_cosine; norm_num
  · unfold create_encoding_sine create_encoding_cosine; nlinarith [hsq]

/-- Witness for C8 at the concrete input v = 0, p = 12. -/
theorem create_encoding_contract_witness :
    (0 : ℝ) < 12 ∧ create_encoding_sine 0 12 = 0 ∧ create_encoding_cosine 0 12 = 0.5 :=
  ⟨by norm_num,
   (create_encoding_contract 0 12 (by norm_num)).2.2.2.2.1,
   (create_encoding_contract 0 12 (by norm_num)).2.2.2.2.2.1⟩

/-! ## C9: the default causal-mask path raises a TypeError -/

/-- C9.  Whenever `FullAttention.call` runs with `mask_flag=True` and
`attn_mask=None`, the construction of the default mask passes the keyword
argument `device`, which `TriangularCausalMask.__init__(self, B, L)` does
not accept, so the call raises a `TypeError` before any masking happens:
the default-causal-mask path is unreachable without error. -/
theorem default_causal_mask_unreachable (scale : Option ℝ) (oa : Bool)
    (B L H E S : ℕ) (queries keys values : Tensor4) :
    FullAttention.call ⟨scale, true, oa⟩ B L H E S queries keys values none =
      .error (.typeError "got an unexpected keyword argument") := rfl

/-! ## C1: causal run, L = 4 (code bug) -/

/-- C1 evaluation.  The claimed causal run (mask_flag on, no explicit mask,
L = 4) does not produce zero weights at future positions: the call aborts
with the `TypeError` of C9, and the mask the code would build marks the
past positions `s ≤ l` True — `tf.where(mask, -inf, scores)` would therefore
send past and diagonal scores to −∞ and keep future positions (l,s) = (1,2)
with s > l unmasked, the opposite of the claim. -/
theorem causal_run_L4_fails :
    (FullAttention.call ⟨none, true, false⟩ 1 4 1 1 4
        (fun _ _ _ _ => 0) (fun _ _ _ _ => 0) (fun _ _ _ _ => 0) none).isOk = false
    ∧ TriangularCausalMask.maskAt 1 4 0 0 1 2 = false
    ∧ TriangularCausalMask.maskAt 1 4 0 0 1 0 = true :=
  ⟨rfl, rfl, rfl⟩

/-! ## C7: loading an unfitted encoder -/

/-- C7.  On every stateful encoder variant, `load_encoder` with no
persisted artifact raises the exception whose message instructs the caller
to run the fit first (`BaseEncoder.load_encoder` re-raises
`FileNotFoundError` this way, and `AutoEncoder.load_encoder` does the
same); the orchestrator's plain encode path propagates that exception to
the caller unchanged instead of retrying or swallowing it. -/
theorem load_unfitted_raises (f : String) (store : Store) (M : AEModel) (p : Processor)
    (h : store f = none) :
    BaseEncoder.load_encoder (some f) store = .error (.exception notFittedMsg)
    ∧ AutoEncoder.load_encoder (some f) store = .error (.exception notFittedMsg)
    ∧ (store weatherPath = none →
        DataProcessor.encode M p store = .error (.exception notFittedMsg))
    ∧ notFittedMsg =
      "Error while loading encoder. Try running BaseEncoder.fit_encoder() or BaseEncoder.fit_and_encode() first to create a new encoder" := by
  refine ⟨?_, ?_, ?_, rfl⟩
  · simp [BaseEncoder.load_encoder, h]
  · simp [AutoEncoder.load_encoder, h]
  · intro hw
    simp [DataProcessor.encode, encodeGroups, BaseEncoder.load_encoder,
      encoderFilename, hw]

/-- Witness for C7: the empty store has no weather artifact; both loads and
the orchestrator encode fail with the fit-first exception. -/
theorem load_unfitted_raises_witness :
    BaseEncoder.load_encoder (some weatherPath) emptyStore = .error (.exception notFittedMsg)
    ∧ DataProcessor.encode aeTest procW emptyStore = .error (.exception notFittedMsg) :=
  ⟨(load_unfitted_raises weatherPath emptyStore aeTest procW rfl).1,
   (load_unfitted_raises weatherPath emptyStore aeTest procW rfl).2.2.1 rfl⟩

/-! ## C10: missing fixed columns fail at construction -/

/-- C10.  `DataProcessor.__init__` selects the fixed weather, ferien and
fahrten columns by name: if any one of them is absent from the merged table
the construction raises `KeyError`; when all fixed columns are present the
construction succeeds (extra columns matching no group are merely left out
of every group). -/
theorem init_requires_fixed_cols (input : PDF) :
    ((∃ c ∈ requiredColNames, c ∉ input.cols) →
      DataProcessor.init input = .error .keyError)
    ∧ ((∀ c ∈ requiredColNames, c ∈ input.cols) →
      (DataProcessor.init input).isOk = true) := by
  constructor
  · rintro ⟨c, hc, hnot⟩
    rcases List.mem_append.1 hc with hwf | hfa
    · rcases List.mem_append.1 hwf with hw | hfe
      · have hx : ¬ (weatherColNames.all fun c => decide (c ∈ input.cols)) = true := by
          simp only [List.all_eq_true, decide_eq_true_eq]
          intro hall; exact hnot (hall c hw)
        simp [DataProcessor.init, selectCols, hx]
      · have h2 : ¬ (ferienColNames.all fun c => decide (c ∈ input.cols)) = true := by
          simp only [List.all_eq_true, decide_eq_true_eq]
          intro hall; exact hnot (hall c hfe)
        by_cases h1 : (weatherColNames.all fun c => decide (c ∈ input.cols)) = true
        · simp [DataProcessor.init, selectCols, h1, h2]
        · simp [DataProcessor.init, selectCols, h1]
    · have h3 : ¬ (fahrtenColNames.all fun c => decide (c ∈ input.cols)) = true := by
        simp only [List.all_eq_true, decide_eq_true_eq]
        intro hall; exact hnot (hall c hfa)
      by_cases h1 : (weatherColNames.all fun c => decide (c ∈ input.cols)) = true
      · by_cases h2 : (ferienColNames.all fun c => decide (c ∈ input.cols)) = true
        · simp [DataProcessor.init, selectCols, h1, h2, h3]
        · simp [DataProcessor.init, selectCols, h1, h2]
      · simp [DataProcessor.init, selectCols, h1]
  · intro hall
    have h1 : (weatherColNames.all fun c => decide (c ∈ input.cols)) = true := by
      simp only [List.all_eq_true, decide_eq_true_eq]
      intro c hc
      exact hall c (List.mem_append.2 (Or.inl (List.mem_append.2 (Or.inl hc))))
    have h2 : (ferienColNames.all fun c => decide (c ∈ input.cols)) = true := by
      simp only [List.all_eq_true, decide_eq_true_eq]
      intro c hc
      exact hall c (List.mem_append.2 (Or.inl (List.mem_append.2 (Or.inr hc))))
    have h3 : (fahrtenColNames.all fun c => decide (c ∈ input.cols)) = true := by
      simp only [List.all_eq_true, decide_eq_true_eq]
      intro c hc
      exact hall c (List.mem_append.2 (Or.inr hc))
    simp [DataProcessor.init, selectCols, h1, h2, h3, Except.isOk, Except.toBool]

/-- Witness for C10: a table with no columns fails with `KeyError`, the
complete table `inputW` constructs successfully. -/
theorem init_requires_fixed_cols_witness :
    DataProcessor.init inputBadW = .error .keyError
    ∧ (DataProcessor.init inputW).isOk = true :=
  ⟨(init_requires_fixed_cols inputBadW).1 (by decide),
   (init_requires_fixed_cols inputW).2 (by decide)⟩

/-! ## C4: the derived sales-history group -/

theorem create_sales_cell (L : PDF) (t : ℤ) (c : Col) :
    (create_sales_features L).cell t (Col.lag c) = L.cell (t - 24) c := by
  have hrow : (t ∈ L.rows.map (fun x => x + 24)) ↔ t - 24 ∈ L.rows := by
    simp only [List.mem_map]
    constructor
    · rintro ⟨a, ha, rfl⟩
      simpa using ha
    · intro hm
      exact ⟨t - 24, hm, by ring⟩
  have hcol : (Col.lag c ∈ L.cols.map Col.lag) ↔ c ∈ L.cols := by
    constructor
    · intro hm
      rcases List.mem_map.1 hm with ⟨a, ha, hac⟩
      cases Col.lag.inj hac
      exact ha
    · intro hm
      exact List.mem_map.2 ⟨c, hm, rfl⟩
  by_cases h1 : t - 24 ∈ L.rows <;> by_cases h2 : c ∈ L.cols <;>
    simp [PDF.cell, create_sales_features, hrow, hcol, h1, h2]

theorem init_ok_inv (input : PDF) (p : Processor)
    (h : DataProcessor.init input = .ok p) :
    p.sales = create_sales_features p.labels := by
  by_cases h1 : (weatherColNames.all fun c => decide (c ∈ input.cols)) = true
  · by_cases h2 : (ferienColNames.all fun c => decide (c ∈ input.cols)) = true
    · by_cases h3 : (fahrtenColNames.all fun c => decide (c ∈ input.cols)) = true
      · simp only [DataProcessor.init, selectCols, h1, h2, h3, if_true,
          exceptBind_ok, Except.ok.injEq] at h
        subst h
        rfl
      · simp [DataProcessor.init, selectCols, h1, h2, h3] at h
    · simp [DataProcessor.init, selectCols, h1, h2] at h
  · simp [DataProcessor.init, selectCols, h1] at h

theorem mem_matrix_rows (gs : GroupOutputs) (t : ℤ) (h : t ∈ (matrixOf gs).rows) :
    allDefinedAt [gs.sales, gs.datetime, gs.weather, gs.ferien, gs.fahrten, gs.labels] t
      = true :=
  (List.mem_filter.1 h).2

theorem fitGroups_fst (M : AEModel) (r1 r2 : ℕ) (p : Processor) (store : Store) :
    (fitGroups M r1 r2 p store).1 =
      ⟨scalerTransform (colMeansOf p.sales) (colVarsOf p.sales) p.sales,
       temporalEncode p.datetime,
       weatherEncode (colMeansOf p.weather) (colVarsOf p.weather) p.weather,
       aeEncode M "ferien_encoding" (M.fit p.ferien r1) p.ferien,
       aeEncode M "fahrten_encoding" (M.fit p.fahrten r2) p.fahrten,
       scalerTransform (colMeansOf p.labels) (colVarsOf p.labels) p.labels⟩ := rfl

/-- C4.  After construction, the derived sales-history group is the label
group with every column renamed by the `(t-1)` marker and the index shifted
by one day: its value at any timestamp t and lagged column equals the label
value at t − 1 day; and any timestamp whose t − 1 day is absent from the
label index cannot appear in the final matrix (its sales-history cells are
missing, so `dropna()` removes the row). -/
theorem sales_history_shift (M : AEModel) (r1 r2 : ℕ) (input : PDF) (p : Processor)
    (store : Store) (h : DataProcessor.init input = .ok p) :
    p.sales.cols = p.labels.cols.map Col.lag
    ∧ p.sales.rows = p.labels.rows.map (fun x => x + 24)
    ∧ (∀ (t : ℤ) (c : Col), p.sales.cell t (Col.lag c) = p.labels.cell (t - 24) c)
    ∧ (∀ t : ℤ, t - 24 ∉ p.labels.rows → p.labels.cols ≠ [] →
        t ∉ (DataProcessor.fit_and_encode M r1 r2 p store).1.rows) := by
  have hs := init_ok_inv input p h
  refine ⟨by rw [hs]; rfl, by rw [hs]; rfl, ?_, ?_⟩
  · intro t c
    rw [hs]
    exact create_sales_cell p.labels t c
  · intro t hnot hne hmem
    have hall := mem_matrix_rows (fitGroups M r1 r2 p store).1 t hmem
    simp only [allDefinedAt, List.all_eq_true] at hall
    obtain ⟨c, hc⟩ := List.exists_mem_of_ne_nil _ hne
    have hcolmem : Col.lag c ∈ (fitGroups M r1 r2 p store).1.sales.cols := by
      rw [fitGroups_fst]
      show Col.lag c ∈ p.sales.cols
      rw [hs]
      exact List.mem_map.2 ⟨c, hc, rfl⟩
    have hdef := hall (fitGroups M r1 r2 p store).1.sales (by simp) (Col.lag c) hcolmem
    have hmemr := (PDF.cell_isSome_mem _ t (Col.lag c) hdef).1
    have hrows : (fitGroups M r1 r2 p store).1.sales.rows = p.labels.rows.map (fun x => x + 24) := by
      rw [fitGroups_fst]
      show p.sales.rows = _
      rw [hs]
      rfl
    rw [hrows] at hmemr
    rcases List.mem_map.1 hmemr with ⟨a, ha, hat⟩
    have : a = t - 24 := by omega
    exact hnot (this ▸ ha)

/-- Witness for C4 on the concrete table `inputW`: the sales-history cell
at timestamp 24 equals the label cell at 0, and timestamp 0 (whose previous
day is before the data) is absent from the final matrix. -/
theorem sales_history_shift_witness :
    DataProcessor.init inputW = .ok procW
    ∧ procW.sales.cell 24 (Col.lag (Col.named "10")) = procW.labels.cell 0 (Col.named "10")
    ∧ (0 : ℤ) ∉ (DataProcessor.fit_and_encode aeTest 0 0 procW emptyStore).1.rows := by
  have hinit : DataProcessor.init inputW = .ok procW := rfl
  refine ⟨hinit, ?_, ?_⟩
  · have hcell := (sales_history_shift aeTest 0 0 inputW procW emptyStore hinit).2.2.1 24
      (Col.named "10")
    simpa using hcell
  · exact (sales_history_shift aeTest 0 0 inputW procW emptyStore hinit).2.2.2 0
      (by decide) (by decide)

/-! ## Artifact-store bookkeeping after a fit -/

theorem wne_label : weatherPath ≠ labelPath := by decide

theorem wne_ferien : weatherPath ≠ ferienPath := by decide

theorem wne_fahrten : weatherPath ≠ fahrtenPath := by decide

theorem fene_label : ferienPath ≠ labelPath := by decide

theorem fene_fahrten : ferienPath ≠ fahrtenPath := by decide

theorem fane_label : fahrtenPath ≠ labelPath := by decide

theorem fitStore_label (M : AEModel) (r1 r2 : ℕ) (p : Processor) (store : Store) :
    (fitGroups M r1 r2 p store).2 labelPath
      = some (.scaler (colMeansOf p.sales) (colVarsOf p.sales)) := by
  simp [fitGroups, storeSet]

theorem fitStore_weather (M : AEModel) (r1 r2 : ℕ) (p : Processor) (store : Store) :
    (fitGroups M r1 r2 p store).2 weatherPath
      = some (.scaler (colMeansOf p.weather) (colVarsOf p.weather)) := by
  simp [fitGroups, storeSet, wne_label, wne_ferien, wne_fahrten]

theorem fitStore_ferien (M : AEModel) (r1 r2 : ℕ) (p : Processor) (store : Store) :
    (fitGroups M r1 r2 p store).2 ferienPath = some (.model (M.fit p.ferien r1)) := by
  simp [fitGroups, storeSet, fene_label, fene_fahrten]

theorem fitStore_fahrten (M : AEModel) (r1 r2 : ℕ) (p : Processor) (store : Store) :
    (fitGroups M r1 r2 p store).2 fahrtenPath = some (.model (M.fit p.fahrten r2)) := by
  simp [fitGroups, storeSet, fane_label]

theorem encodeGroups_after_fit (M : AEModel) (r1 r2 : ℕ) (p : Processor) (store : Store) :
    encodeGroups M p (fitGroups M r1 r2 p store).2 =
      .ok ⟨scalerTransform (colMeansOf p.sales) (colVarsOf p.sales) p.sales,
           temporalEncode p.datetime,
           weatherEncode (colMeansOf p.weather) (colVarsOf p.weather) p.weather,
           aeEncode M "ferien_encoding" (M.fit p.ferien r1) p.ferien,
           aeEncode M "fahrten_encoding" (M.fit p.fahrten r2) p.fahrten,
           scalerTransform (colMeansOf p.sales) (colVarsOf p.sales) p.labels⟩ := by
  simp [encodeGroups, BaseEncoder.load_encoder, AutoEncoder.load_encoder, encoderFilename,
    fitStore_label M r1 r2 p store, fitStore_weather M r1 r2 p store,
    fitStore_ferien M r1 r2 p store, fitStore_fahrten M r1 r2 p store]

/-! ## C3: labels and sales share one persisted artifact -/

/-- C3.  The `labels` group and the derived `sales` group are encoded by
two `LabelEncoder` instances persisting to the same default path
`saved_models/label_encoding.save`; since sales is fitted after labels in
`fit_and_encode`, the store afterwards holds the sales-fitted scaler at
that path, and a subsequent `encode` loads that one state for both groups. -/
theorem shared_label_artifact (M : AEModel) (r1 r2 : ℕ) (p : Processor) (store : Store) :
    encoderFilename "labels" = some labelPath
    ∧ encoderFilename "sales" = some labelPath
    ∧ (DataProcessor.fit_and_encode M r1 r2 p store).2 labelPath
        = some (.scaler (colMeansOf p.sales) (colVarsOf p.sales))
    ∧ (encodeGroups M p (DataProcessor.fit_and_encode M r1 r2 p store).2).map
          (fun gs => (gs.labels, gs.sales))
        = .ok (scalerTransform (colMeansOf p.sales) (colVarsOf p.sales) p.labels,
               scalerTransform (colMeansOf p.sales) (colVarsOf p.sales) p.sales) := by
  refine ⟨rfl, rfl, ?_, ?_⟩
  · show (fitGroups M r1 r2 p store).2 labelPath = _
    exact fitStore_label M r1 r2 p store
  · show (encodeGroups M p (fitGroups M r1 r2 p store).2).map _ = _
    rw [encodeGroups_after_fit]
    rfl

/-! ## C2: encode after fit_and_encode reproduces the matrix -/

theorem colVals_sales (L : PDF) (c : Col) :
    colVals (create_sales_features L) (Col.lag c) = colVals L c := by
  unfold colVals
  have hrows : (create_sales_features L).rows = L.rows.map (fun x => x + 24) := rfl
  rw [hrows, List.map_map]
  have hf : (fun t => ((create_sales_features L).cell t (Col.lag c)).getD 0) ∘
      (fun x => x + 24) = fun t => (L.cell t c).getD 0 := by
    funext t
    show ((create_sales_features L).cell (t + 24) (Col.lag c)).getD 0 = _
    rw [create_sales_cell, add_sub_cancel_right]
  rw [hf]

theorem colMean_sales (L : PDF) (c : Col) :
    colMean (create_sales_features L) (Col.lag c) = colMean L c := by
  unfold colMean
  rw [colVals_sales]

theorem colVar_sales (L : PDF) (c : Col) :
    colVar (create_sales_features L) (Col.lag c) = colVar L c := by
  unfold colVar
  rw [colVals_sales, colMean_sales]

theorem colMeansOf_sales (L : PDF) :
    colMeansOf (create_sales_features L) = colMeansOf L := by
  unfold colMeansOf
  have hcols : (create_sales_features L).cols = L.cols.map Col.lag := rfl
  rw [hcols, List.map_map]
  have hf : (colMean (create_sales_features L)) ∘ Col.lag = colMean L :=
    funext fun c => colMean_sales L c
  rw [hf]

theorem colVarsOf_sales (L : PDF) :
    colVarsOf (create_sales_features L) = colVarsOf L := by
  unfold colVarsOf
  have hcols : (create_sales_features L).cols = L.cols.map Col.lag := rfl
  rw [hcols, List.map_map]
  have hf : (colVar (create_sales_features L)) ∘ Col.lag = colVar L :=
    funext fun c => colVar_sales L c
  rw [hf]

/-- C2.  Running `fit_and_encode` and then `encode` on the same
`DataProcessor` yields the identical output matrix.  For the scaler-backed
groups this is determinism of fit + persisted reload; for the shared
labels/sales artifact it additionally uses that the sales table holds
exactly the label values, so the overwriting sales fit equals the labels
fit; for the stochastic autoencoder groups the freshly trained state is
persisted and reloaded unchanged, so transform-given-fixed-state is
deterministic and reproduces the fit-time output. -/
theorem fit_then_encode_eq (M : AEModel) (r1 r2 : ℕ) (input : PDF) (p : Processor)
    (store : Store) (h : DataProcessor.init input = .ok p) :
    DataProcessor.encode M p (DataProcessor.fit_and_encode M r1 r2 p store).2
      = .ok (DataProcessor.fit_and_encode M r1 r2 p store).1 := by
  have hs := init_ok_inv input p h
  show (encodeGroups M p (fitGroups M r1 r2 p store).2).map matrixOf
      = .ok (matrixOf (fitGroups M r1 r2 p store).1)
  rw [encodeGroups_after_fit, fitGroups_fst, hs, colMeansOf_sales, colVarsOf_sales]
  rfl

/-- Witness for C2 on the concrete table `inputW`. -/
theorem fit_then_encode_eq_witness :
    DataProcessor.init inputW = .ok procW
    ∧ DataProcessor.encode aeTest procW
        (DataProcessor.fit_and_encode aeTest 0 0 procW emptyStore).2
      = .ok (DataProcessor.fit_and_encode aeTest 0 0 procW emptyStore).1 :=
  ⟨rfl, fit_then_encode_eq aeTest 0 0 inputW procW emptyStore rfl⟩

/-! ## C5: row survival -/

theorem mem_matrixOf_iff (gs : GroupOutputs) (t : ℤ) (hw : gs.weather.cols ≠ []) :
    t ∈ (matrixOf gs).rows ↔
      ∀ d ∈ [gs.sales, gs.datetime, gs.weather, gs.ferien, gs.fahrten, gs.labels],
        ∀ c ∈ d.cols, (d.cell t c).isSome := by
  constructor
  · intro h
    have hdef := (List.mem_filter.1 h).2
    simpa [allDefinedAt, List.all_eq_true] using hdef
  · intro h
    apply List.mem_filter.2
    refine ⟨?_, ?_⟩
    · obtain ⟨c, hc⟩ := List.exists_mem_of_ne_nil _ hw
      have hd := h gs.weather (by simp) c hc
      have hmem := (PDF.cell_isSome_mem _ t c hd).1
      show t ∈ concatRows [gs.sales, gs.datetime, gs.weather, gs.ferien, gs.fahrten, gs.labels]
      simp only [concatRows, List.foldr_cons, List.foldr_nil, List.mem_append]
      exact Or.inr (Or.inr (Or.inl (by simpa using hmem)))
    · simpa [allDefinedAt, List.all_eq_true] using h

theorem encodeGroups_ok_weather (M : AEModel) (p : Processor) (store : Store)
    (gs : GroupOutputs) (h : encodeGroups M p store = .ok gs) :
    ∃ m v, gs.weather = weatherEncode m v p.weather := by
  cases hw : store weatherPath with
  | none =>
    simp [encodeGroups, BaseEncoder.load_encoder, encoderFilename, hw] at h
  | some st =>
    cases st with
    | model mid =>
      simp [encodeGroups, BaseEncoder.load_encoder, encoderFilename, hw] at h
    | scaler m v =>
      cases hfe : store ferienPath with
      | none =>
        simp [encodeGroups, BaseEncoder.load_encoder, AutoEncoder.load_encoder,
          encoderFilename, hw, hfe] at h
      | some st2 =>
        cases st2 with
        | scaler m2 v2 =>
          simp [encodeGroups, BaseEncoder.load_encoder, AutoEncoder.load_encoder,
            encoderFilename, hw, hfe] at h
        | model mid2 =>
          cases hfa : store fahrtenPath with
          | none =>
            simp [encodeGroups, BaseEncoder.load_encoder, AutoEncoder.load_encoder,
              encoderFilename, hw, hfe, hfa] at h
          | some st3 =>
            cases st3 with
            | scaler m3 v3 =>
              simp [encodeGroups, BaseEncoder.load_encoder, AutoEncoder.load_encoder,
                encoderFilename, hw, hfe, hfa] at h
            | model mid3 =>
              cases hl : store labelPath with
              | none =>
                simp [encodeGroups, BaseEncoder.load_encoder, AutoEncoder.load_encoder,
                  encoderFilename, hw, hfe, hfa, hl] at h
              | some st4 =>
                cases st4 with
                | model mid4 =>
                  simp [encodeGroups, BaseEncoder.load_encoder, AutoEncoder.load_encoder,
                    encoderFilename, hw, hfe, hfa, hl] at h
                | scaler m4 v4 =>
                  simp only [encodeGroups, BaseEncoder.load_encoder,
                    AutoEncoder.load_encoder, encoderFilename, hw, hfe, hfa, hl,
                    exceptBind_ok] at h
                  injection h with h2
                  subst h2
                  exact ⟨m, v, rfl⟩

/-- C5.  A timestamp appears in the final matrix (of `fit_and_encode`, and
likewise of any successful `encode`) if and only if each of the six encoded
groups — sales, datetime, weather, ferien, fahrten, labels — has a defined,
non-missing value in every one of its columns at that timestamp. -/
theorem row_survival (M : AEModel) (r1 r2 : ℕ) (p : Processor) (store : Store) (t : ℤ) :
    (t ∈ (DataProcessor.fit_and_encode M r1 r2 p store).1.rows ↔
      ∀ d ∈ [(fitGroups M r1 r2 p store).1.sales, (fitGroups M r1 r2 p store).1.datetime,
             (fitGroups M r1 r2 p store).1.weather, (fitGroups M r1 r2 p store).1.ferien,
             (fitGroups M r1 r2 p store).1.fahrten, (fitGroups M r1 r2 p store).1.labels],
        ∀ c ∈ d.cols, (d.cell t c).isSome)
    ∧ (∀ gs : GroupOutputs, encodeGroups M p store = .ok gs →
        (t ∈ (matrixOf gs).rows ↔
          ∀ d ∈ [gs.sales, gs.datetime, gs.weather, gs.ferien, gs.fahrten, gs.labels],
            ∀ c ∈ d.cols, (d.cell t c).isSome)) := by
  constructor
  · have hw : (fitGroups M r1 r2 p store).1.weather.cols ≠ [] := by
      rw [fitGroups_fst]
      show (weatherEncode (colMeansOf p.weather) (colVarsOf p.weather) p.weather).cols ≠ []
      simp [weatherEncode]
    exact mem_matrixOf_iff (fitGroups M r1 r2 p store).1 t hw
  · intro gs hok
    obtain ⟨m, v, hwe⟩ := encodeGroups_ok_weather M p store gs hok
    have hw : gs.weather.cols ≠ [] := by
      rw [hwe]
      simp [weatherEncode]
    exact mem_matrixOf_iff gs t hw

/-- Witness for C5: the encode-mode clause evaluated on the concrete
processor `procW` with the store produced by a fresh fit. -/
theorem row_survival_witness :
    (24 : ℤ) ∈ (matrixOf gsFitW).rows ↔
      ∀ d ∈ [gsFitW.sales, gsFitW.datetime, gsFitW.weather, gsFitW.ferien,
             gsFitW.fahrten, gsFitW.labels],
        ∀ c ∈ d.cols, (d.cell 24 c).isSome :=
  (row_survival aeTest 0 0 procW (fitGroups aeTest 0 0 procW emptyStore).2 24).2 gsFitW
    (encodeGroups_after_fit aeTest 0 0 procW emptyStore)

/-! ## C6: load_database precedence -/

theorem combine_first_cell (n b : PDF) (t : ℤ) (c : Col) :
    (combine_first n b).cell t c = (n.cell t c).orElse (fun _ => b.cell t c) := by
  by_cases h : t ∈ n.rows ++ b.rows ∧ c ∈ n.cols ++ b.cols
  · exact PDF.cell_eq_of_mem _ t c h.1 h.2
  · have h1 : (combine_first n b).cell t c = none := by
      simp only [PDF.cell, combine_first]
      rw [if_neg h]
    rw [h1]
    rcases not_and_or.1 h with hr | hc2
    · simp only [List.mem_append, not_or] at hr
      have hn : n.cell t c = none := by
        have hx : ¬(t ∈ n.rows ∧ c ∈ n.cols) := fun hh => hr.1 hh.1
        simp [PDF.cell, hx]
      have hb : b.cell t c = none := by
        have hx : ¬(t ∈ b.rows ∧ c ∈ b.cols) := fun hh => hr.2 hh.1
        simp [PDF.cell, hx]
      rw [hn, hb]
      rfl
    · simp only [List.mem_append, not_or] at hc2
      have hn : n.cell t c = none := by
        have hx : ¬(t ∈ n.rows ∧ c ∈ n.cols) := fun hh => hc2.1 hh.2
        simp [PDF.cell, hx]
      have hb : b.cell t c = none := by
        have hx : ¬(t ∈ b.rows ∧ c ∈ b.cols) := fun hh => hc2.2 hh.2
        simp [PDF.cell, hx]
      rw [hn, hb]
      rfl

theorem outer_join_cell_left (a b : PDF) (t : ℤ) (c : Col) (h : c ∈ a.cols) :
    (outer_join a b).cell t c = a.cell t c := by
  by_cases hg : t ∈ a.rows ++ b.rows ∧ c ∈ a.cols ++ b.cols
  · rw [PDF.cell_eq_of_mem _ t c hg.1 hg.2]
    show (if c ∈ a.cols then a.cell t c else b.cell t c) = a.cell t c
    rw [if_pos h]
  · have h1 : (outer_join a b).cell t c = none := by
      simp only [PDF.cell, outer_join]
      rw [if_neg hg]
    have h2 : a.cell t c = none := by
      have hx : ¬(t ∈ a.rows ∧ c ∈ a.cols) := by
        intro hh
        exact hg ⟨List.mem_append_left _ hh.1, List.mem_append_left _ hh.2⟩
      simp [PDF.cell, hx]
    rw [h1, h2]

theorem outer_join_cell_right (a b : PDF) (t : ℤ) (c : Col)
    (hna : c ∉ a.cols) (_hb : c ∈ b.cols) :
    (outer_join a b).cell t c = b.cell t c := by
  by_cases hg : t ∈ a.rows ++ b.rows ∧ c ∈ a.cols ++ b.cols
  · rw [PDF.cell_eq_of_mem _ t c hg.1 hg.2]
    show (if c ∈ a.cols then a.cell t c else b.cell t c) = b.cell t c
    rw [if_neg hna]
  · have h1 : (outer_join a b).cell t c = none := by
      simp only [PDF.cell, outer_join]
      rw [if_neg hg]
    have h2 : b.cell t c = none := by
      have hx : ¬(t ∈ b.rows ∧ c ∈ b.cols) := by
        intro hh
        exact hg ⟨List.mem_append_right _ hh.1, List.mem_append_right _ hh.2⟩
      simp [PDF.cell, hx]
    rw [h1, h2]

theorem mem_foldl_join_cols (ds : List PDF) (acc : PDF) (c : Col) (h : c ∈ acc.cols) :
    c ∈ (ds.foldl outer_join acc).cols := by
  induction ds generalizing acc with
  | nil => exact h
  | cons d rest ih => exact ih (outer_join acc d) (List.mem_append_left _ h)

theorem mem_foldl_join_cols_elem (ds : List PDF) (acc : PDF) (c : Col)
    (h : ∃ d ∈ ds, c ∈ d.cols) :
    c ∈ (ds.foldl outer_join acc).cols := by
  induction ds generalizing acc with
  | nil => rcases h with ⟨d, hd, _⟩; cases hd
  | cons d rest ih =>
    rcases h with ⟨d2, hd2, hc2⟩
    rcases List.mem_cons.1 hd2 with rfl | hmem
    · exact mem_foldl_join_cols rest (outer_join acc d2) c (List.mem_append_right _ hc2)
    · exact ih (outer_join acc d) ⟨d2, hmem, hc2⟩

theorem foldl_join_cell_left (ds : List PDF) (acc : PDF) (t : ℤ) (c : Col)
    (h : c ∈ acc.cols) :
    (ds.foldl outer_join acc).cell t c = acc.cell t c := by
  induction ds generalizing acc with
  | nil => rfl
  | cons d rest ih =>
    show (rest.foldl outer_join (outer_join acc d)).cell t c = _
    rw [ih (outer_join acc d) (List.mem_append_left _ h),
      outer_join_cell_left acc d t c h]

theorem foldl_join_cell_mid (l1 : List PDF) :
    ∀ (l2 : List PDF) (dk acc : PDF) (t : ℤ) (c : Col),
    c ∉ acc.cols → (∀ d ∈ l1, c ∉ d.cols) → c ∈ dk.cols →
    ((l1 ++ dk :: l2).foldl outer_join acc).cell t c = dk.cell t c := by
  induction l1 with
  | nil =>
    intro l2 dk acc t c hacc _ hdk
    show (l2.foldl outer_join (outer_join acc dk)).cell t c = _
    rw [foldl_join_cell_left l2 (outer_join acc dk) t c (List.mem_append_right _ hdk),
      outer_join_cell_right acc dk t c hacc hdk]
  | cons d rest ih =>
    intro l2 dk acc t c hacc hl1 hdk
    show ((rest ++ dk :: l2).foldl outer_join (outer_join acc d)).cell t c = _
    apply ih l2 dk (outer_join acc d) t c ?_ ?_ hdk
    · intro hh
      rcases List.mem_append.1 hh with h1 | h2
      · exact hacc h1
      · exact hl1 d (List.mem_cons_self d rest) h2
    · intro d2 hd2
      exact hl1 d2 (List.mem_cons_of_mem d hd2)

theorem joinAll_cell (pre post : List PDF) (dk : PDF) (t : ℤ) (c : Col)
    (hpre : ∀ d ∈ pre, c ∉ d.cols) (hdk : c ∈ dk.cols) (j : PDF)
    (hj : joinAll (pre ++ dk :: post) = some j) :
    j.cell t c = dk.cell t c := by
  cases pre with
  | nil =>
    simp only [List.nil_append, joinAll, Option.some.injEq] at hj
    subst hj
    exact foldl_join_cell_left post dk t c hdk
  | cons d0 rest =>
    simp only [List.cons_append, joinAll, Option.some.injEq] at hj
    subst hj
    exact foldl_join_cell_mid rest post dk d0 t c
      (hpre d0 (List.mem_cons_self d0 rest))
      (fun d hd => hpre d (List.mem_cons_of_mem d0 hd)) hdk

theorem joinAll_cols (pre post : List PDF) (dk : PDF) (c : Col)
    (hdk : c ∈ dk.cols) (j : PDF) (hj : joinAll (pre ++ dk :: post) = some j) :
    c ∈ j.cols := by
  cases pre with
  | nil =>
    simp only [List.nil_append, joinAll, Option.some.injEq] at hj
    subst hj
    exact mem_foldl_join_cols post dk c hdk
  | cons d0 rest =>
    simp only [List.cons_append, joinAll, Option.some.injEq] at hj
    subst hj
    exact mem_foldl_join_cols_elem (rest ++ dk :: post) d0 c
      ⟨dk, List.mem_append_right _ (List.mem_cons_self dk post), hdk⟩

/-- C6.  In the table `DataProvider.load_database` builds, a cell of a
source at a surviving timestamp holds the incremental (new-data) value when
the incremental file defines one, otherwise the baseline value when the
baseline defines one, otherwise 0 — i.e. the cell equals
`(new <|> baseline).getD 0`. -/
theorem load_database_precedence (c : ProviderConfigs)
    (pre post : List (Option PDF × PDF)) (n b : PDF) (t : ℤ) (col : Col) (res : PDF)
    (hres : load_database c (pre ++ (some n, b) :: post) = some res)
    (hcol : col ∈ n.cols ++ b.cols)
    (hpre : ∀ s ∈ pre, col ∉ (mergedSource s).cols)
    (_hpost : ∀ s ∈ post, col ∉ (mergedSource s).cols)
    (ht : t ∈ res.rows) :
    res.cell t col = some (((n.cell t col).orElse (fun _ => b.cell t col)).getD 0) := by
  unfold load_database at hres
  rw [List.map_append, List.map_cons] at hres
  rcases hjoin : joinAll
      (pre.map mergedSource ++ mergedSource (some n, b) :: post.map mergedSource)
    with _ | j
  · rw [hjoin] at hres
    simp at hres
  · rw [hjoin] at hres
    simp only [Option.map_some', Option.some.injEq] at hres
    subst hres
    have hpre2 : ∀ d ∈ pre.map mergedSource, col ∉ d.cols := by
      intro d hd
      rcases List.mem_map.1 hd with ⟨s, hs, rfl⟩
      exact hpre s hs
    have hcell := joinAll_cell (pre.map mergedSource) (post.map mergedSource)
      (mergedSource (some n, b)) t col hpre2 hcol j hjoin
    have hcols : col ∈ j.cols :=
      joinAll_cols (pre.map mergedSource) (post.map mergedSource)
        (mergedSource (some n, b)) col hcol j hjoin
    have htj : t ∈ j.rows := (List.mem_filter.1 ht).1
    have hval : j.val t col = (combine_first n b).cell t col := by
      rw [← PDF.cell_eq_of_mem j t col htj hcols]
      exact hcell
    show PDF.cell (PDF.fillna 0 (filter_time_and_date c j)) t col = _
    rw [PDF.cell_eq_of_mem _ t col ht hcols]
    show (if t ∈ (filter_time_and_date c j).rows ∧ col ∈ (filter_time_and_date c j).cols
        then some (((filter_time_and_date c j).cell t col).getD 0) else none) = _
    rw [if_pos ⟨ht, hcols⟩,
      PDF.cell_eq_of_mem (filter_time_and_date c j) t col ht hcols]
    show some ((j.val t col).getD 0) = _
    rw [hval, combine_first_cell]

/-- Witness for C6 on one concrete source: new value 3 beats baseline 7 at
(5, x); the baseline value 7 fills (6, x) where the new file has no row;
the all-missing cell (6, y) is filled with 0. -/
theorem load_database_precedence_witness :
    resW.cell 5 (Col.named "x") =
      some (((nW.cell 5 (Col.named "x")).orElse (fun _ => bW.cell 5 (Col.named "x"))).getD 0)
    ∧ resW.cell 6 (Col.named "x") =
      some (((nW.cell 6 (Col.named "x")).orElse (fun _ => bW.cell 6 (Col.named "x"))).getD 0)
    ∧ resW.cell 6 (Col.named "y") =
      some (((nW.cell 6 (Col.named "y")).orElse (fun _ => bW.cell 6 (Col.named "y"))).getD 0) :=
  ⟨load_database_precedence cW [] [] nW bW 5 (Col.named "x") resW rfl (by decide)
      (by simp) (by simp) (by decide),
   load_database_precedence cW [] [] nW bW 6 (Col.named "x") resW rfl (by decide)
      (by simp) (by simp) (by decide),
   load_database_precedence cW [] [] nW bW 6 (Col.named "y") resW rfl (by decide)
      (by simp) (by simp) (by decide)⟩

end CleanBachelor
